import Mathlib

/-!
Verification development for the gosfzplayer SFZ sampler.

The definitions below are shallow embeddings of the Go source:
  - parser.go            : opcode store, inheritance lookup, typed accessors
  - jackPlayer.go        : regionMatches, calculatePitchRatio, noteOn and noteOff
                           state effects, getInterpolatedSample, the reverb stage
                           of processCallback
  - voice.go (part_003)  : Voice, ProcessEnvelope, TriggerRelease, ProcessLoop
  - player.go (part_000) : loadAllSamples

Go float64 arithmetic is modelled over the rationals where only field
operations and comparisons occur, and over the reals where the code uses
math.Pow.  Go int is modelled as Int, uint8 as Nat.
-/

/- ## Opcode store (parser.go) -/

/-- Accumulates a base-10 digit string into a natural number; fails on the
empty string or on any non-digit character.  Models the digit loop of
strconv.Atoi (range overflow of int64 is not modelled; all opcode values in
scope are small). -/
def atoiDigits (cs : List Char) : Option Nat :=
  match cs with
  | [] => none
  | _ =>
    cs.foldl
      (fun acc c =>
        match acc with
        | none => none
        | some n =>
          if '0' ≤ c ∧ c ≤ '9' then some (n * 10 + (c.toNat - '0'.toNat)) else none)
      (some 0)

/-- Models strconv.Atoi: an optional sign followed by at least one digit;
anything else is a parse error (none). -/
def atoi (s : String) : Option Int :=
  match s.data with
  | '+' :: rest => (atoiDigits rest).map (fun n => (n : Int))
  | '-' :: rest => (atoiDigits rest).map (fun n => -(n : Int))
  | cs => (atoiDigits cs).map (fun n => (n : Int))

/-- SfzSection from parser.go.  The Go struct holds pointers ParentGroup and
GlobalRef to other sections, but getInheritedValue only ever reads the
Opcodes map of those sections, so the embedding stores just those maps
(none models a nil pointer).  The Opcodes map is an association list. -/
structure SfzSection where
  type : String
  opcodes : List (String × String)
  parentOpcodes : Option (List (String × String))
  globalOpcodes : Option (List (String × String))

/-- Map lookup on an opcode map (Go map indexing with the comma-ok form). -/
def lookupOpcode (m : List (String × String)) (k : String) : Option String :=
  List.lookup k m

/-- getInheritedValue from parser.go: self, then parent group map, then
global map; first definition wins.  Go returns (value, ok); the embedding
returns Option String. -/
def getInheritedValue (s : SfzSection) (opcode : String) : Option String :=
  match lookupOpcode s.opcodes opcode with
  | some v => some v
  | none =>
    match s.parentOpcodes.bind (fun p => lookupOpcode p opcode) with
    | some v => some v
    | none => s.globalOpcodes.bind (fun g => lookupOpcode g opcode)

/-- convertToInt from parser.go: strconv.Atoi with a caller-supplied default
on parse failure.  The opcode argument is only used for logging in Go. -/
def convertToInt (value : String) (opcode : String) (defaultValue : Int) : Int :=
  match atoi value with
  | some n => n
  | none => defaultValue

/-- GetStringOpcode from parser.go: own map only, empty string default. -/
def GetStringOpcode (s : SfzSection) (opcode : String) : String :=
  (lookupOpcode s.opcodes opcode).getD ""

/-- GetInheritedStringOpcode from parser.go. -/
def GetInheritedStringOpcode (s : SfzSection) (opcode : String) : String :=
  (getInheritedValue s opcode).getD ""

/-- GetInheritedIntOpcode from parser.go. -/
def GetInheritedIntOpcode (s : SfzSection) (opcode : String) (defaultValue : Int) : Int :=
  match getInheritedValue s opcode with
  | some v => convertToInt v opcode defaultValue
  | none => defaultValue

/- ## Region matching (jackPlayer.go, regionMatches) -/

/-- regionMatches from jackPlayer.go lines 304-359.  The engine fields read
by the Go method (currentKeyswitch, activeNoteCount) are passed explicitly.
The chain of early returns in Go is linearized into an if chain, each guard
returning false exactly when the corresponding Go guard returns false. -/
def regionMatches (currentKeyswitch : Nat) (activeNoteCount : Int)
    (region : SfzSection) (note velocity : Nat) : Bool :=
  let lokey0 := GetInheritedIntOpcode region "lokey" 0
  let hikey0 := GetInheritedIntOpcode region "hikey" 127
  let key := GetInheritedIntOpcode region "key" (-1)
  -- if key is specified it is used as both lokey and hikey
  let lokey := if key ≥ 0 then key else lokey0
  let hikey := if key ≥ 0 then key else hikey0
  if (note : Int) < lokey ∨ (note : Int) > hikey then false
  else
    let lovel := GetInheritedIntOpcode region "lovel" 1
    let hivel := GetInheritedIntOpcode region "hivel" 127
    if (velocity : Int) < lovel ∨ (velocity : Int) > hivel then false
    else
      let swLokey := GetInheritedIntOpcode region "sw_lokey" (-1)
      let swHikey := GetInheritedIntOpcode region "sw_hikey" (-1)
      if swLokey ≥ 0 ∧ swHikey ≥ 0 ∧
          ((currentKeyswitch : Int) < swLokey ∨ (currentKeyswitch : Int) > swHikey) then false
      else
        let trigger0 := GetInheritedStringOpcode region "trigger"
        let triggerMode := if trigger0 = "" then "attack" else trigger0
        if triggerMode = "first" ∧ activeNoteCount > 1 then false
        else if triggerMode = "legato" ∧ activeNoteCount ≤ 1 then false
        else if triggerMode = "release" then false
        else true

/-- Inheritance lookup that finds nothing yields the caller default. -/
theorem GetInheritedIntOpcode_eq_default (s : SfzSection) (op : String) (d : Int)
    (h : getInheritedValue s op = none) : GetInheritedIntOpcode s op d = d := by
  simp [GetInheritedIntOpcode, h]

/-- Inheritance lookup that finds nothing yields the empty string. -/
theorem GetInheritedStringOpcode_eq_empty (s : SfzSection) (op : String)
    (h : getInheritedValue s op = none) : GetInheritedStringOpcode s op = "" := by
  simp [GetInheritedStringOpcode, h]

/-- C1: for any region whose opcodes resolve key to k with k at least 0,
lovel to a and hivel to b, with no keyswitch and no trigger opcode anywhere
in its inheritance chain, regionMatches accepts note n and velocity v
exactly when n equals k and a le v le b.  The values of lokey and hikey are
left fully unconstrained: the theorem holds whatever they resolve to, and
for every keyswitch state and active-note count. -/
theorem regionMatches_key_overrides_lokey_hikey
    (region : SfzSection) (note velocity : Nat) (k a b : Int)
    (hk : GetInheritedIntOpcode region "key" (-1) = k)
    (hk0 : 0 ≤ k)
    (ha : GetInheritedIntOpcode region "lovel" 1 = a)
    (hb : GetInheritedIntOpcode region "hivel" 127 = b)
    (hsw1 : getInheritedValue region "sw_lokey" = none)
    (hsw2 : getInheritedValue region "sw_hikey" = none)
    (htr : getInheritedValue region "trigger" = none)
    (currentKeyswitch : Nat) (activeNoteCount : Int) :
    regionMatches currentKeyswitch activeNoteCount region note velocity = true ↔
      ((note : Int) = k ∧ a ≤ (velocity : Int) ∧ (velocity : Int) ≤ b) := by
  have hsw1i := GetInheritedIntOpcode_eq_default region "sw_lokey" (-1) hsw1
  have hsw2i := GetInheritedIntOpcode_eq_default region "sw_hikey" (-1) hsw2
  have htrs := GetInheritedStringOpcode_eq_empty region "trigger" htr
  simp only [regionMatches, hk, ha, hb, hsw1i, hsw2i, htrs]
  rw [if_pos hk0, if_pos hk0]
  have hswfalse : ¬((-1 : Int) ≥ 0 ∧ (-1 : Int) ≥ 0 ∧
      ((currentKeyswitch : Int) < -1 ∨ (currentKeyswitch : Int) > -1)) := by
    intro hcon; omega
  have htrue : ((if ("" : String) = "" then "attack" else "") = "attack") := by simp
  rw [htrue] at *
  constructor
  · intro h
    by_contra hc
    push_neg at hc
    -- find which guard must have rejected
    by_cases h1 : (note : Int) < k ∨ (note : Int) > k
    · rw [if_pos h1] at h; exact Bool.false_ne_true h
    · rw [if_neg h1] at h
      push_neg at h1
      by_cases h2 : (velocity : Int) < a ∨ (velocity : Int) > b
      · rw [if_pos h2] at h; exact Bool.false_ne_true h
      · push_neg at h2
        omega
  · intro ⟨h1, h2, h3⟩
    have hn1 : ¬((note : Int) < k ∨ (note : Int) > k) := by omega
    have hn2 : ¬((velocity : Int) < a ∨ (velocity : Int) > b) := by omega
    rw [if_neg hn1, if_neg hn2, if_neg hswfalse]
    simp

/-- Concrete region exercising the C1 theorem: key is 60 while lokey and
hikey deliberately disagree with it, lovel 10, hivel 100. -/
def c1Region : SfzSection :=
  { type := "region"
    opcodes := [("key", "60"), ("lovel", "10"), ("hivel", "100"),
                ("lokey", "0"), ("hikey", "61"), ("sample", "a.wav")]
    parentOpcodes := none
    globalOpcodes := none }

/-- Witness for C1: at note 60 velocity 50 the region with key 60, lovel 10
and hivel 100 matches, by the C1 theorem evaluated at that input. -/
theorem regionMatches_key_overrides_lokey_hikey_witness :
    regionMatches 0 1 c1Region 60 50 = true :=
  (regionMatches_key_overrides_lokey_hikey c1Region 60 50 60 10 100
      (by decide) (by decide) (by decide) (by decide) (by decide) (by decide) (by decide)
      0 1).mpr (by decide)

/- ## C6: note-name opcode values (parser.go convertToInt) -/

/-- Region taken from testdata/test.sfz: the hikey opcode carries the note
name c4, which the repository documentation says is MIDI note 60, and the
key opcode likewise. -/
def c6Region : SfzSection :=
  { type := "region"
    opcodes := [("hikey", "c4"), ("key", "c4")]
    parentOpcodes := none
    globalOpcodes := none }

/-- C6 evaluated on the code: convertToInt cannot parse the note name c4
(strconv.Atoi fails), so the typed accessor falls back to the caller
default instead of resolving it to MIDI 60.  With hikey set to c4 the
accessor returns the default 127, and with key set to c4 it returns the
default -1, so the region is treated as having no key constraint at all. -/
theorem noteName_c4_falls_back_to_default :
    convertToInt "c4" "hikey" 127 = 127 ∧
    GetInheritedIntOpcode c6Region "hikey" 127 = 127 ∧
    GetInheritedIntOpcode c6Region "hikey" 127 ≠ 60 ∧
    GetInheritedIntOpcode c6Region "key" (-1) = -1 := by
  refine ⟨by decide, by decide, by decide, by decide⟩

/- ## C7: sample loading at construction (player.go loadAllSamples) -/

/-- Error text produced by loadAllSamples for a region whose sample fails to
load (fmt.Errorf with the sample path, the region index and the wrapped
error). -/
def loadErrorMsg (samplePath : String) (i : Nat) (e : String) : String :=
  "failed to load sample '" ++ samplePath ++ "' for region " ++ toString i ++ ": " ++ e

/-- Loop body of loadAllSamples from player.go lines 109-128, indexed the
way the Go range loop indexes regions.  The sample cache call
LoadSampleRelative is external file I/O and is abstracted as the load
argument, which either succeeds or yields the error text Go would wrap. -/
def loadAllSamplesAux (load : String → Except String Unit) :
    Nat → List SfzSection → Except String Unit
  | _, [] => .ok ()
  | i, r :: rs =>
    let samplePath := GetStringOpcode r "sample"
    if samplePath = "" then
      -- region without a sample opcode: warn and skip
      loadAllSamplesAux load (i + 1) rs
    else
      match load samplePath with
      | .error e => .error (loadErrorMsg samplePath i e)
      | .ok _ => loadAllSamplesAux load (i + 1) rs

/-- loadAllSamples from player.go. -/
def loadAllSamples (regions : List SfzSection) (load : String → Except String Unit) :
    Except String Unit :=
  loadAllSamplesAux load 0 regions

/-- Sample-loading phase of NewSfzPlayer from player.go: a loadAllSamples
error aborts construction, wrapped as failed to load samples. -/
def NewSfzPlayerSampleLoading (regions : List SfzSection)
    (load : String → Except String Unit) : Except String Unit :=
  match loadAllSamples regions load with
  | .error e => .error ("failed to load samples: " ++ e)
  | .ok _ => .ok ()

theorem loadAllSamplesAux_ok_iff (load : String → Except String Unit) :
    ∀ (rs : List SfzSection) (i : Nat),
      loadAllSamplesAux load i rs = .ok () ↔
        ∀ r ∈ rs, GetStringOpcode r "sample" = "" ∨
          load (GetStringOpcode r "sample") = .ok ()
  | [], i => by simp [loadAllSamplesAux]
  | r :: rs, i => by
    simp only [loadAllSamplesAux]
    by_cases hp : GetStringOpcode r "sample" = ""
    · rw [if_pos hp]
      rw [loadAllSamplesAux_ok_iff load rs (i + 1)]
      simp [hp]
    · rw [if_neg hp]
      cases hload : load (GetStringOpcode r "sample") with
      | error e =>
        simp only [List.mem_cons]
        constructor
        · intro h; exact absurd h (by simp)
        · intro h
          rcases h r (Or.inl rfl) with h1 | h1
          · exact absurd h1 hp
          · rw [hload] at h1; exact absurd h1 (by simp)
      | ok u =>
        rw [loadAllSamplesAux_ok_iff load rs (i + 1)]
        cases u
        simp only [List.mem_cons]
        constructor
        · intro h r2 hr2
          rcases hr2 with rfl | hr2
          · exact Or.inr hload
          · exact h r2 hr2
        · intro h r2 hr2
          exact h r2 (Or.inr hr2)

theorem loadAllSamplesAux_first_error (load : String → Except String Unit) :
    ∀ (pre : List SfzSection) (i : Nat) (r : SfzSection) (post : List SfzSection) (e : String),
      (∀ rj ∈ pre, GetStringOpcode rj "sample" = "" ∨
        load (GetStringOpcode rj "sample") = .ok ()) →
      GetStringOpcode r "sample" ≠ "" →
      load (GetStringOpcode r "sample") = .error e →
      loadAllSamplesAux load i (pre ++ r :: post) =
        .error (loadErrorMsg (GetStringOpcode r "sample") (i + pre.length) e)
  | [], i, r, post, e => by
    intro _ hne hload
    simp only [List.nil_append, loadAllSamplesAux]
    rw [if_neg hne, hload]
    simp
  | r0 :: pre, i, r, post, e => by
    intro hpre hne hload
    simp only [List.cons_append, loadAllSamplesAux, List.append_eq]
    have hr0 := hpre r0 (List.mem_cons_self r0 pre)
    have hrest : ∀ rj ∈ pre, GetStringOpcode rj "sample" = "" ∨
        load (GetStringOpcode rj "sample") = .ok () := by
      intro rj hrj; exact hpre rj (List.mem_cons_of_mem r0 hrj)
    have hrec := loadAllSamplesAux_first_error load pre (i + 1) r post e hrest hne hload
    have hlen : i + 1 + pre.length = i + (r0 :: pre).length := by
      simp [List.length_cons]; omega
    rcases hr0 with h0 | h0
    · rw [if_pos h0, hrec, hlen]
    · by_cases hp0 : GetStringOpcode r0 "sample" = ""
      · rw [if_pos hp0, hrec, hlen]
      · rw [if_neg hp0, h0]
        dsimp only
        rw [hrec, hlen]

/-- C7: NewSfzPlayer sample loading succeeds exactly when every region with
a nonempty sample opcode loads; a region with an empty or absent sample
opcode is skipped and never causes failure.  Moreover the first region
whose nonempty sample fails to load determines the construction error, and
that error names the offending sample path and the region index. -/
theorem NewSfzPlayer_sample_errors (regions : List SfzSection)
    (load : String → Except String Unit) :
    (NewSfzPlayerSampleLoading regions load = .ok () ↔
      ∀ r ∈ regions, GetStringOpcode r "sample" = "" ∨
        load (GetStringOpcode r "sample") = .ok ()) ∧
    (∀ (pre : List SfzSection) (r : SfzSection) (post : List SfzSection) (e : String),
      regions = pre ++ r :: post →
      (∀ rj ∈ pre, GetStringOpcode rj "sample" = "" ∨
        load (GetStringOpcode rj "sample") = .ok ()) →
      GetStringOpcode r "sample" ≠ "" →
      load (GetStringOpcode r "sample") = .error e →
      NewSfzPlayerSampleLoading regions load =
        .error ("failed to load samples: " ++
          loadErrorMsg (GetStringOpcode r "sample") pre.length e)) := by
  constructor
  · unfold NewSfzPlayerSampleLoading loadAllSamples
    rw [← loadAllSamplesAux_ok_iff load regions 0]
    cases h : loadAllSamplesAux load 0 regions with
    | error e => simp [h]
    | ok u => cases u; simp [h]
  · intro pre r post e hsplit hpre hne hload
    have := loadAllSamplesAux_first_error load pre 0 r post e hpre hne hload
    rw [← hsplit] at this
    unfold NewSfzPlayerSampleLoading loadAllSamples
    rw [this]
    simp

/-- Region with a loadable sample, used by the C7 witness. -/
def c7RegionGood : SfzSection :=
  { type := "region", opcodes := [("sample", "good.wav")],
    parentOpcodes := none, globalOpcodes := none }

/-- Region without a sample opcode, used by the C7 witness. -/
def c7RegionNoSample : SfzSection :=
  { type := "region", opcodes := [("lokey", "0")],
    parentOpcodes := none, globalOpcodes := none }

/-- Region whose sample fails to load, used by the C7 witness. -/
def c7RegionBad : SfzSection :=
  { type := "region", opcodes := [("sample", "bad.wav")],
    parentOpcodes := none, globalOpcodes := none }

/-- Regions used by the C7 witness. -/
def c7Regions : List SfzSection := [c7RegionGood, c7RegionNoSample, c7RegionBad]

/-- Loader used by the C7 witness. -/
def c7Load (p : String) : Except String Unit :=
  if p = "good.wav" then .ok () else .error "sample file not found: bad.wav"

/-- Witness for C7: with the concrete regions above, construction fails with
the error naming bad.wav and region index 2, by the C7 theorem evaluated at
that input. -/
theorem NewSfzPlayer_sample_errors_witness :
    NewSfzPlayerSampleLoading c7Regions c7Load =
      .error ("failed to load samples: failed to load sample 'bad.wav' for region 2: sample file not found: bad.wav") := by
  have h := (NewSfzPlayer_sample_errors c7Regions c7Load).2
    [c7RegionGood, c7RegionNoSample] c7RegionBad [] "sample file not found: bad.wav"
    rfl
    (by
      intro rj hrj
      simp only [List.mem_cons, List.not_mem_nil, or_false] at hrj
      rcases hrj with rfl | rfl
      · exact Or.inr rfl
      · exact Or.inl rfl)
    (by decide)
    rfl
  exact h

/- ## Voice state (voice.go, src/unnamed/part_003) -/

/-- EnvelopeState from voice.go. -/
inductive EnvelopeState where
  | EnvelopeAttack
  | EnvelopeDecay
  | EnvelopeSustain
  | EnvelopeRelease
  | EnvelopeOff
deriving DecidableEq

/-- Voice from voice.go.  Go float64 fields are modelled as rationals (the
voice code uses only field operations and comparisons); the sample pointer
is represented by the Data slice it carries.  The region pointer is dropped:
it is read only by the Initialize functions, which are modelled by passing
their already-resolved results in these fields. -/
structure Voice where
  sample : List ℚ
  midiNote : Nat
  velocity : Nat
  position : ℚ
  volume : ℚ
  pan : ℚ
  pitchRatio : ℚ
  isActive : Bool
  noteOn : Bool
  envelopeState : EnvelopeState
  envelopeLevel : ℚ
  envelopeTime : ℚ
  attackSamples : ℚ
  decaySamples : ℚ
  sustainLevel : ℚ
  releaseSamples : ℚ
  loopMode : String
  loopStart : ℚ
  loopEnd : ℚ
  groupID : Int
  offByGroup : Int
  triggerMode : String

/-- ProcessEnvelope from voice.go lines 98-160.  The Go switch over the
envelope state is rendered as an if chain; the method mutates the voice and
returns the current envelope level, so the embedding returns the updated
voice paired with the returned level. -/
def ProcessEnvelope (v : Voice) : Voice × ℚ :=
  let v1 :=
    if v.envelopeState = .EnvelopeAttack then
      if v.attackSamples ≤ 0 then
        { v with envelopeLevel := 1, envelopeState := .EnvelopeDecay, envelopeTime := 0 }
      else
        let lvl := v.envelopeTime / v.attackSamples
        if lvl ≥ 1 then
          { v with envelopeLevel := 1, envelopeState := .EnvelopeDecay, envelopeTime := 0 }
        else
          { v with envelopeLevel := lvl }
    else if v.envelopeState = .EnvelopeDecay then
      if v.decaySamples ≤ 0 then
        { v with envelopeLevel := v.sustainLevel, envelopeState := .EnvelopeSustain }
      else
        let progress := v.envelopeTime / v.decaySamples
        if progress ≥ 1 then
          { v with envelopeLevel := v.sustainLevel, envelopeState := .EnvelopeSustain }
        else
          { v with envelopeLevel := 1 - progress * (1 - v.sustainLevel) }
    else if v.envelopeState = .EnvelopeSustain then
      { v with envelopeLevel := v.sustainLevel }
    else if v.envelopeState = .EnvelopeRelease then
      if v.releaseSamples ≤ 0 then
        { v with envelopeLevel := 0, envelopeState := .EnvelopeOff }
      else
        let startLevel := v.sustainLevel
        let progress := v.envelopeTime / v.releaseSamples
        if progress ≥ 1 then
          { v with envelopeLevel := 0, envelopeState := .EnvelopeOff }
        else
          { v with envelopeLevel := startLevel * (1 - progress) }
    else
      { v with envelopeLevel := 0, isActive := false }
  let v2 := { v1 with envelopeTime := v1.envelopeTime + 1 }
  (v2, v2.envelopeLevel)

/-- TriggerRelease from voice.go lines 163-177. -/
def TriggerRelease (v : Voice) : Voice :=
  if v.envelopeState ≠ .EnvelopeRelease ∧ v.envelopeState ≠ .EnvelopeOff then
    let v1 := { v with envelopeState := .EnvelopeRelease, envelopeTime := 0, noteOn := false }
    if v1.loopMode = "loop_sustain" then { v1 with loopMode := "no_loop" } else v1
  else v

/-- ProcessLoop from voice.go lines 214-257: the Go switch over the loop
mode string, returning the possibly wrapped voice and whether it should
keep playing. -/
def ProcessLoop (v : Voice) : Voice × Bool :=
  let sampleLength : ℚ := (v.sample.length : ℚ)
  if v.loopMode = "no_loop" then
    if v.position ≥ sampleLength - 1 then (v, false) else (v, true)
  else if v.loopMode = "one_shot" then
    if v.position ≥ sampleLength - 1 then (v, false) else (v, true)
  else if v.loopMode = "loop_continuous" then
    if v.position ≥ v.loopEnd then
      ({ v with position := v.loopStart + (v.position - v.loopEnd) }, true)
    else (v, true)
  else if v.loopMode = "loop_sustain" then
    if v.noteOn ∧ v.position ≥ v.loopEnd then
      ({ v with position := v.loopStart + (v.position - v.loopEnd) }, true)
    else if ¬v.noteOn ∧ v.position ≥ sampleLength - 1 then (v, false)
    else (v, true)
  else
    if v.position ≥ sampleLength - 1 then (v, false) else (v, true)

/-- Per-sample tail of renderVoice from jackPlayer.go lines 490-494: advance
the position by the pitch ratio, then run the loop state machine. -/
def renderVoiceAdvance (v : Voice) : Voice × Bool :=
  ProcessLoop { v with position := v.position + v.pitchRatio }

/-- Envelope part of the renderVoice loop body, jackPlayer.go lines 472-479:
process the envelope, then deactivate the voice when the level is not
positive and the envelope has reached Off. -/
def renderEnvelopeStep (v : Voice) : Voice :=
  let pe := ProcessEnvelope v
  if pe.2 ≤ 0 ∧ pe.1.envelopeState = .EnvelopeOff then
    { pe.1 with isActive := false }
  else pe.1

/-- Voice scan of noteOff from jackPlayer.go lines 292-297: every active
voice holding the released note is sent TriggerRelease, with no check of
its loop mode. -/
def noteOffVoices (note : Nat) (voices : List Voice) : List Voice :=
  voices.map (fun v => if v.midiNote = note ∧ v.noteOn then TriggerRelease v else v)

/-- Concrete one_shot voice for C3: loop mode one_shot, envelope holding at
Sustain, note 60 held. -/
def oneShotVoice : Voice :=
  { sample := [0, 0, 0, 0], midiNote := 60, velocity := 100, position := 1,
    volume := 1, pan := 0, pitchRatio := 1, isActive := true, noteOn := true,
    envelopeState := .EnvelopeSustain, envelopeLevel := 1, envelopeTime := 10,
    attackSamples := 0, decaySamples := 0, sustainLevel := 1, releaseSamples := 100,
    loopMode := "one_shot", loopStart := 0, loopEnd := 3,
    groupID := 0, offByGroup := 0, triggerMode := "attack" }

/-- C3 evaluated on the code: noteOff sends TriggerRelease to every voice
holding the released note without checking its loop mode, so a one_shot
voice in Sustain is switched to Release by a note-off, contrary to the
repository documentation that one_shot ignores note-off.  -/
theorem oneShot_noteOff_enters_release :
    oneShotVoice.loopMode = "one_shot" ∧
    oneShotVoice.envelopeState = .EnvelopeSustain ∧
    (noteOffVoices 60 [oneShotVoice]).map Voice.envelopeState = [.EnvelopeRelease] := by
  refine ⟨rfl, rfl, ?_⟩
  decide

/-- C4: in loop_continuous mode a wrap sets the new position to loop_start
plus the fractional overshoot past loop_end, and under the stated
conditions (previous position below loop_end, positive pitch ratio, valid
loop points) the wrapped position lies in [loop_start, loop_end + ratio).
The loop engine always keeps a loop_continuous voice playing. -/
theorem loopContinuous_wrap_bounds (v : Voice)
    (hmode : v.loopMode = "loop_continuous")
    (hpos : v.position < v.loopEnd)
    (hratio : 0 < v.pitchRatio)
    (hse : v.loopStart ≤ v.loopEnd) :
    (renderVoiceAdvance v).2 = true ∧
    (v.loopEnd ≤ v.position + v.pitchRatio →
      (renderVoiceAdvance v).1.position =
        v.loopStart + (v.position + v.pitchRatio - v.loopEnd) ∧
      v.loopStart ≤ (renderVoiceAdvance v).1.position ∧
      (renderVoiceAdvance v).1.position < v.loopEnd + v.pitchRatio) := by
  simp only [renderVoiceAdvance, ProcessLoop, hmode]
  rw [if_pos trivial]
  by_cases hwrap : v.position + v.pitchRatio ≥ v.loopEnd
  · rw [if_pos hwrap]
    exact ⟨rfl, fun _ => ⟨rfl, by simp; linarith, by simp; linarith⟩⟩
  · rw [if_neg hwrap]
    exact ⟨rfl, fun hc => absurd hc hwrap⟩

/-- Concrete loop_continuous voice for the C4 witness: loop points 100 to
200, position 199.5, pitch ratio 1. -/
def c4Voice : Voice :=
  { sample := List.replicate 1000 0, midiNote := 60, velocity := 100, position := 199.5,
    volume := 1, pan := 0, pitchRatio := 1, isActive := true, noteOn := true,
    envelopeState := .EnvelopeSustain, envelopeLevel := 1, envelopeTime := 0,
    attackSamples := 0, decaySamples := 0, sustainLevel := 1, releaseSamples := 100,
    loopMode := "loop_continuous", loopStart := 100, loopEnd := 200,
    groupID := 0, offByGroup := 0, triggerMode := "attack" }

/-- Witness for C4: advancing the concrete voice past loop_end wraps it to
100.5, inside [loop_start, loop_end + ratio), by the C4 theorem evaluated
at that input. -/
theorem loopContinuous_wrap_bounds_witness :
    (renderVoiceAdvance c4Voice).2 = true ∧
    (renderVoiceAdvance c4Voice).1.position = 100.5 := by
  have h := loopContinuous_wrap_bounds c4Voice rfl (by norm_num [c4Voice])
    (by norm_num [c4Voice]) (by norm_num [c4Voice])
  refine ⟨h.1, ?_⟩
  have h2 := (h.2 (by norm_num [c4Voice])).1
  rw [h2]
  norm_num [c4Voice]

/-- TriggerRelease on a voice that is in neither Release nor Off enters the
Release phase with a reset elapsed counter and an unchanged sustain level. -/
theorem TriggerRelease_fields (w : Voice)
    (hne : w.envelopeState ≠ .EnvelopeRelease)
    (hno : w.envelopeState ≠ .EnvelopeOff) :
    (TriggerRelease w).envelopeState = .EnvelopeRelease ∧
    (TriggerRelease w).envelopeTime = 0 ∧
    (TriggerRelease w).sustainLevel = w.sustainLevel := by
  simp only [TriggerRelease, if_pos (And.intro hne hno)]
  split_ifs <;> exact ⟨rfl, rfl, rfl⟩

/-- C8: in the Release phase the envelope level is sustain_level times
(1 - elapsed/release_samples) whatever the current envelope level was; when
the ramp completes (or release_samples is not positive) the level is 0, the
state becomes Off and the renderVoice check marks the voice inactive; and
TriggerRelease from Attack, Decay or Sustain enters Release with the
elapsed counter reset, so the ramp indeed starts from sustain_level. -/
theorem release_ramps_from_sustain (v : Voice)
    (h : v.envelopeState = .EnvelopeRelease) :
    (0 < v.releaseSamples → v.envelopeTime / v.releaseSamples < 1 →
      (ProcessEnvelope v).2 = v.sustainLevel * (1 - v.envelopeTime / v.releaseSamples)) ∧
    (v.releaseSamples ≤ 0 ∨ 1 ≤ v.envelopeTime / v.releaseSamples →
      (ProcessEnvelope v).2 = 0 ∧
      (ProcessEnvelope v).1.envelopeState = .EnvelopeOff ∧
      (renderEnvelopeStep v).isActive = false) ∧
    (∀ l : ℚ, (ProcessEnvelope { v with envelopeLevel := l }).2 = (ProcessEnvelope v).2) ∧
    (∀ w : Voice,
      w.envelopeState = .EnvelopeAttack ∨ w.envelopeState = .EnvelopeDecay ∨
        w.envelopeState = .EnvelopeSustain →
      (TriggerRelease w).envelopeState = .EnvelopeRelease ∧
      (TriggerRelease w).envelopeTime = 0 ∧
      (TriggerRelease w).sustainLevel = w.sustainLevel) := by
  refine ⟨?_, ?_, ?_, ?_⟩
  · intro hR hP
    have h1 : ¬ v.releaseSamples ≤ 0 := by linarith
    have h2 : ¬ v.envelopeTime / v.releaseSamples ≥ 1 := by linarith
    simp [ProcessEnvelope, h, h1, h2]
  · intro hdone
    rcases hdone with h1 | h1
    · have h1p : v.releaseSamples ≤ 0 := h1
      refine ⟨?_, ?_, ?_⟩ <;>
        simp [ProcessEnvelope, renderEnvelopeStep, h, h1p]
    · by_cases h2 : v.releaseSamples ≤ 0
      · refine ⟨?_, ?_, ?_⟩ <;>
          simp [ProcessEnvelope, renderEnvelopeStep, h, h2]
      · have h3 : v.envelopeTime / v.releaseSamples ≥ 1 := h1
        refine ⟨?_, ?_, ?_⟩ <;>
          simp [ProcessEnvelope, renderEnvelopeStep, h, h2, h3]
  · intro l
    simp [ProcessEnvelope, h]
  · intro w hw
    have hne : w.envelopeState ≠ .EnvelopeRelease := by
      rcases hw with hw | hw | hw <;> rw [hw] <;> decide
    have hno : w.envelopeState ≠ .EnvelopeOff := by
      rcases hw with hw | hw | hw <;> rw [hw] <;> decide
    exact TriggerRelease_fields w hne hno

/-- Concrete releasing voice for the C8 witness: sustain one half, release
100 samples, 50 samples elapsed in Release. -/
def c8Voice : Voice :=
  { sample := [0, 0, 0, 0], midiNote := 64, velocity := 90, position := 1,
    volume := 1, pan := 0, pitchRatio := 1, isActive := true, noteOn := false,
    envelopeState := .EnvelopeRelease, envelopeLevel := 1, envelopeTime := 50,
    attackSamples := 0, decaySamples := 0, sustainLevel := 1/2, releaseSamples := 100,
    loopMode := "no_loop", loopStart := 0, loopEnd := 3,
    groupID := 0, offByGroup := 0, triggerMode := "attack" }

/-- Witness for C8: halfway through a 100-sample release with sustain one
half, the envelope level is one quarter, by the C8 theorem evaluated at
that input. -/
theorem release_ramps_from_sustain_witness :
    (ProcessEnvelope c8Voice).2 = 1/4 := by
  have h := (release_ramps_from_sustain c8Voice rfl).1 (by norm_num [c8Voice])
    (by norm_num [c8Voice])
  rw [h]
  norm_num [c8Voice]

/- ## C2: pitch ratio (jackPlayer.go calculatePitchRatio) -/

/-- clampFloat64 from jackPlayer.go, at real inputs. -/
noncomputable def clampFloat64 (value minV maxV : ℝ) : ℝ :=
  if value > maxV then maxV
  else if value < minV then minV
  else value

/-- calculatePitchRatio from jackPlayer.go lines 390-436, over the reals
(math.Pow is real exponentiation).  The opcode lookups of the Go method are
passed as already-resolved arguments: pitchKeycenter with default the
played note, transpose with default 0, tune and pitch with default 0,
bendUp with default 200 and bendDown with default -200; pitchBendValue is
the engine field. -/
noncomputable def calculatePitchRatio (pitchKeycenter transpose : Int) (tune pitch : ℝ)
    (bendUp bendDown pitchBendValue : Int) (midiNote : Nat) : ℝ :=
  let base : ℝ := (((midiNote : Int) - pitchKeycenter : Int) : ℝ) + (transpose : ℝ)
    + tune / 100 + pitch / 100
  let semitones :=
    if pitchBendValue ≠ 0 then
      if pitchBendValue > 0 then
        base + (pitchBendValue : ℝ) / 8192 * (bendUp : ℝ) / 100
      else
        base + (pitchBendValue : ℝ) / 8192 * (((-bendDown : Int)) : ℝ) / 100
    else base
  clampFloat64 ((2 : ℝ) ^ (semitones / 12)) 0.1 10

/-- Semitone formula as the spec states it, for comparison with the code:
(n - pitch_keycenter) + transpose + tune/100 + pitch/100 plus the bend
contribution, which is (bend/8192)(bend_up/100) for positive bend,
(bend/8192)(-bend_down/100) for negative bend and 0 otherwise. -/
noncomputable def pitchSemitonesSpec (pitchKeycenter transpose : Int) (tune pitch : ℝ)
    (bendUp bendDown pitchBendValue : Int) (midiNote : Nat) : ℝ :=
  ((midiNote : ℝ) - (pitchKeycenter : ℝ)) + (transpose : ℝ) + tune / 100 + pitch / 100 +
    (if pitchBendValue > 0 then (pitchBendValue : ℝ) / 8192 * ((bendUp : ℝ) / 100)
     else if pitchBendValue < 0 then (pitchBendValue : ℝ) / 8192 * (-((bendDown : ℝ) / 100))
     else 0)

/-- C2: the computed ratio is two to the spec semitone count over twelve,
clamped to [0.1, 10]; and with the keycenter defaulted to the played note
and transpose, tune, pitch and pitch bend all zero it is exactly 1. -/
theorem calculatePitchRatio_correct (pitchKeycenter transpose : Int) (tune pitch : ℝ)
    (bendUp bendDown pitchBendValue : Int) (midiNote : Nat) :
    calculatePitchRatio pitchKeycenter transpose tune pitch bendUp bendDown
        pitchBendValue midiNote =
      clampFloat64
        ((2 : ℝ) ^ (pitchSemitonesSpec pitchKeycenter transpose tune pitch bendUp bendDown
            pitchBendValue midiNote / 12)) 0.1 10 ∧
    calculatePitchRatio (midiNote : Int) 0 0 0 bendUp bendDown 0 midiNote = 1 := by
  constructor
  · simp only [calculatePitchRatio, pitchSemitonesSpec]
    congr 2
    split_ifs <;> first | omega | (push_cast; ring)
  · simp only [calculatePitchRatio]
    have hbase : (((midiNote : Int) - (midiNote : Int) : Int) : ℝ) + ((0 : Int) : ℝ)
        + (0 : ℝ) / 100 + (0 : ℝ) / 100 = 0 := by push_cast; ring
    rw [if_neg (by omega : ¬ (0 : Int) ≠ 0), hbase]
    norm_num [clampFloat64, Real.rpow_zero]

/- ## C5: reverb stage of processCallback (jackPlayer.go) -/

/-- clampFloat64 from jackPlayer.go, at rational inputs. -/
def clampFloat64Q (value minV maxV : ℚ) : ℚ :=
  if value > maxV then maxV
  else if value < minV then minV
  else value

/-- applyReverb from jackPlayer.go lines 585-604.  The Freeverb processor
is abstracted as a stateful per-sample function processMono, threaded
through the buffer exactly as the Go loop threads the reverb filter state;
each output sample is the dry/wet mix clamped to [-1, 1]. -/
def applyReverb {σ : Type} (reverbSend : ℚ) (processMono : σ → ℚ → σ × ℚ)
    (st : σ) (buffer : List ℚ) : σ × List ℚ :=
  match buffer with
  | [] => (st, [])
  | x :: xs =>
    let reverbInput := x * reverbSend
    let p := processMono st reverbInput
    let dryLevel := 1 - reverbSend
    let out := clampFloat64Q (x * dryLevel + p.2) (-1) 1
    let rest := applyReverb reverbSend processMono p.1 xs
    (rest.1, out :: rest.2)

/-- Reverb stage of processCallback, jackPlayer.go lines 149-152: the
rendered mix passes through applyReverb only when the reverb send level is
strictly positive, otherwise the buffer and the reverb state are left
untouched. -/
def processCallbackReverb {σ : Type} (reverbSend : ℚ) (processMono : σ → ℚ → σ × ℚ)
    (st : σ) (mixed : List ℚ) : σ × List ℚ :=
  if reverbSend > 0 then applyReverb reverbSend processMono st mixed
  else (st, mixed)

/-- C5: with the reverb send level equal to 0 the guard in processCallback
skips applyReverb entirely, so every rendered buffer is returned bitwise
equal to the pre-reverb voice mix and the reverb state is untouched,
whatever the reverb processor is. -/
theorem reverb_send_zero_passthrough {σ : Type} (processMono : σ → ℚ → σ × ℚ)
    (st : σ) (mixed : List ℚ) :
    processCallbackReverb 0 processMono st mixed = (st, mixed) := by
  simp [processCallbackReverb]

/- ## C9: interpolated sample read (jackPlayer.go getInterpolatedSample) -/

/-- Go conversion from float64 to int: truncation toward zero. -/
def truncQ (q : ℚ) : Int :=
  if q < 0 then -(⌊-q⌋) else ⌊q⌋

/-- getInterpolatedSample from jackPlayer.go lines 502-540.  Go slice
indexing is modelled by getD with default 0; the bounds theorem below shows
the default is never consulted, exactly as the Go indexes never go out of
range. -/
def getInterpolatedSample (data : List ℚ) (position : ℚ) (samplesPerFrame : Nat) : ℚ :=
  let intPos := truncQ position
  let fracPos := position - (intPos : ℚ)
  let maxFrames := data.length / samplesPerFrame
  if intPos ≥ (maxFrames : Int) then 0
  else
    let i := intPos.toNat
    let sample1 := if samplesPerFrame = 1 then data.getD i 0 else data.getD (i * 2) 0
    let sample2 :=
      if intPos + 1 < (maxFrames : Int) then
        if samplesPerFrame = 1 then data.getD (i + 1) 0 else data.getD ((i + 1) * 2) 0
      else sample1
    sample1 + fracPos * (sample2 - sample1)

/-- Data indices read by getInterpolatedSample, branch for branch. -/
def interpIndices (data : List ℚ) (position : ℚ) (samplesPerFrame : Nat) : List Nat :=
  let intPos := truncQ position
  let maxFrames := data.length / samplesPerFrame
  if intPos ≥ (maxFrames : Int) then []
  else
    let i := intPos.toNat
    let first := if samplesPerFrame = 1 then i else i * 2
    if intPos + 1 < (maxFrames : Int) then
      [first, if samplesPerFrame = 1 then i + 1 else (i + 1) * 2]
    else [first]

/-- C9: for a mono or stereo frame layout and a non-negative read position,
a position at or past the frame count returns 0, and otherwise every data
index the interpolation reads, including the neighbor that falls back to
the current frame at the last frame, is strictly within the data bounds. -/
theorem getInterpolatedSample_safe (data : List ℚ) (position : ℚ) (samplesPerFrame : Nat)
    (hspf : samplesPerFrame = 1 ∨ samplesPerFrame = 2) (hpos : 0 ≤ position) :
    (truncQ position ≥ ((data.length / samplesPerFrame : Nat) : Int) →
      getInterpolatedSample data position samplesPerFrame = 0) ∧
    (∀ j ∈ interpIndices data position samplesPerFrame, j < data.length) := by
  constructor
  · intro hge
    simp only [getInterpolatedSample]
    rw [if_pos hge]
  · intro j hj
    simp only [interpIndices] at hj
    by_cases hge : truncQ position ≥ ((data.length / samplesPerFrame : Nat) : Int)
    · rw [if_pos hge] at hj
      simp at hj
    · rw [if_neg hge] at hj
      push_neg at hge
      have h0 : 0 ≤ truncQ position := by
        unfold truncQ
        rw [if_neg (by linarith : ¬ position < 0)]
        exact Int.floor_nonneg.mpr hpos
      have hi : ((truncQ position).toNat : Int) = truncQ position := Int.toNat_of_nonneg h0
      have hilt : (truncQ position).toNat < data.length / samplesPerFrame := by omega
      by_cases hnext : truncQ position + 1 < ((data.length / samplesPerFrame : Nat) : Int)
      · rw [if_pos hnext] at hj
        have hnext2 : (truncQ position).toNat + 1 < data.length / samplesPerFrame := by omega
        rcases hspf with rfl | rfl <;> simp at hj <;> rcases hj with rfl | rfl <;> omega
      · rw [if_neg hnext] at hj
        rcases hspf with rfl | rfl <;> simp at hj <;> subst hj <;> omega

/-- Witness for C9: on a three-sample mono buffer, position 1.5 reads only
indices below 3, and position 3.5 (past the end) returns 0, by the C9
theorem evaluated at those inputs. -/
theorem getInterpolatedSample_safe_witness :
    (∀ j ∈ interpIndices [1, 2, 3] (3 / 2 : ℚ) 1, j < 3) ∧
    getInterpolatedSample [1, 2, 3] (7 / 2 : ℚ) 1 = 0 := by
  have h1 := getInterpolatedSample_safe [1, 2, 3] (3 / 2 : ℚ) 1 (Or.inl rfl) (by norm_num)
  have h2 := getInterpolatedSample_safe [1, 2, 3] (7 / 2 : ℚ) 1 (Or.inl rfl) (by norm_num)
  refine ⟨fun j hj => h1.2 j hj, h2.1 ?_⟩
  have h3 : truncQ (7 / 2 : ℚ) = 3 := by
    rw [truncQ, if_neg (by norm_num)]
    rw [Int.floor_eq_iff]
    norm_num
  rw [h3]
  norm_num

/- ## C10: active-note counter (jackPlayer.go noteOn and noteOff) -/

/-- MIDI note event kinds seen by the counter. -/
inductive MidiNoteEvent where
  | noteOnEvent
  | noteOffEvent

/-- Effect of one event on the activeNoteCount field: noteOn (jackPlayer.go
line 217) increments it; noteOff (lines 287-290) decrements it and clamps a
negative result back to 0. -/
def noteEventCountStep (c : Int) (e : MidiNoteEvent) : Int :=
  match e with
  | .noteOnEvent => c + 1
  | .noteOffEvent =>
    let c1 := c - 1
    if c1 < 0 then 0 else c1

/-- The activeNoteCount after a sequence of note events, starting from the
zero-initialized engine. -/
def activeNoteCountAfter (events : List MidiNoteEvent) : Int :=
  events.foldl noteEventCountStep 0

theorem noteEventCount_foldl_nonneg :
    ∀ (events : List MidiNoteEvent) (c : Int), 0 ≤ c →
      0 ≤ events.foldl noteEventCountStep c
  | [], c => fun h => h
  | e :: es, c => fun h => by
    have hstep : 0 ≤ noteEventCountStep c e := by
      cases e with
      | noteOnEvent => simp only [noteEventCountStep]; omega
      | noteOffEvent => simp only [noteEventCountStep]; split_ifs <;> omega
    exact noteEventCount_foldl_nonneg es _ hstep

/-- C10: whatever sequence of note-on and note-off events arrives, including
note-offs with no matching note-on, the active-note counter never goes
negative. -/
theorem activeNoteCount_nonneg (events : List MidiNoteEvent) :
    0 ≤ activeNoteCountAfter events :=
  noteEventCount_foldl_nonneg events 0 le_rfl

